import Mathlib

/-!
Shallow embedding of the core of `garmin-mcp-server`:
the Query Gateway (`src/services/garmin-data-service.ts`, `runQuery`) and the
Incremental Sync Engine (`src/services/garmin-sync-service.ts`,
`syncActivities`, `saveActivities`, `getLatestActivityDate`).

Modelling conventions:
- JavaScript strings are handled as `List Char` (the queries in scope are
  ASCII, where UTF-16 length and character count agree).
- `start_time_local` timestamps are modelled as `Nat` (the code compares
  them through `new Date(...)`, a total order on valid timestamps).
- The activities table is a `List ActivityRow`; a row keeps the columns the
  verified claims inspect (`activity_id` INTEGER PRIMARY KEY,
  `activity_name`, `start_time_local`, `calories`) out of the 59 columns of
  `activitySchema`; the omitted metric columns play no role in any claim and
  would only widen the record type.
- The SQLite engine behind `db.prepare(...)` is an explicit parameter
  (`SqlEngine`): preparing a statement can fail, a prepared statement has a
  `reader` flag, and running it can read and, in general, rewrite the store.
  The `readonly: true` handle opened by `getDatabase` is modelled by
  `execReadonly`, which refuses any execution that would change the store,
  exactly as a readonly SQLite connection fails writes at the file-access
  layer.
- Asynchronous failures (database open, login, page fetch, row write) are
  environment parameters; the unbounded `while (keepGoing)` pagination loop
  takes a fuel argument, with fuel exhaustion (`none`) kept apart from the
  error handling being verified.
-/

namespace GarminMcp

/-- One row of the `activities` table (`activitySchema`,
`garmin-sync-service.ts` lines 13-72): `activity_id` is the INTEGER PRIMARY
KEY; the remaining modelled columns are the ones the claims mention. -/
structure ActivityRow where
  activity_id : Int
  activity_name : String
  start_time_local : Nat
  calories : Int
deriving DecidableEq

/-- The `activities` table of the local store. -/
abbrev Db := List ActivityRow

/-- A remote activity record as returned by `gc.getActivities` (the fields
read through `activitySchema`, restricted to the modelled columns). -/
structure Activity where
  activityId : Int
  activityName : String
  startTimeLocal : Nat
  calories : Int
deriving DecidableEq

/-- The positional extraction of `activitySchema` applied to one remote
record (`getNested` over each `garminKey`), restricted to the modelled
columns. -/
def toRow (a : Activity) : ActivityRow :=
  ⟨a.activityId, a.activityName, a.startTimeLocal, a.calories⟩

/-- Whether the table holds a row with the given primary key. -/
def hasId (db : Db) (i : Int) : Bool :=
  db.any (fun r => r.activity_id == i)

/-- Pointwise replacement of the row keyed like `r` by `r`. -/
def replOne (r : ActivityRow) (x : ActivityRow) : ActivityRow :=
  if x.activity_id == r.activity_id then r else x

/-- `INSERT OR REPLACE INTO activities ...` for one row: with
`activity_id INTEGER PRIMARY KEY` (the rowid), a conflicting row is replaced
in place, otherwise the row is appended. -/
def upsert (db : Db) (r : ActivityRow) : Db :=
  if hasId db r.activity_id then
    db.map (replOne r)
  else
    db ++ [r]

/-- The effect on the table of running the prepared `INSERT OR REPLACE`
statement over a whole batch, in order. -/
def applyAll (db : Db) (items : List Activity) : Db :=
  items.foldl (fun d a => upsert d (toRow a)) db

/-- `SELECT MAX(start_time_local) FROM activities` (`getLatestActivityDate`,
`garmin-sync-service.ts` lines 122-132): `none` on an empty table. -/
def latestAux : List ActivityRow → Option Nat
  | [] => none
  | r :: t =>
    match latestAux t with
    | none => some r.start_time_local
    | some m => some (max r.start_time_local m)

/-- The watermark of the store. -/
def getLatestActivityDate (db : Db) : Option Nat :=
  latestAux db

/-- `SELECT COUNT(*) FROM activities` (`getActivitiesCount`, lines 134-144). -/
def getActivitiesCount (db : Db) : Nat :=
  db.length

/-! ## Query Gateway (`src/services/garmin-data-service.ts`, lines 82-125) -/

/-- A scalar value in a result row produced by the engine. -/
inductive Scalar where
  | null
  | intv (n : Int)
  | text (s : String)
deriving DecidableEq

/-- A result row: column name to scalar value, in engine order. -/
abbrev Row := List (String × Scalar)

/-- The single quote character (code 39). -/
def singleQuote : Char := Char.ofNat 39

/-- The double quote character (code 34). -/
def doubleQuote : Char := Char.ofNat 34

/-- The backquote character (code 96). -/
def backQuote : Char := Char.ofNat 96

/-- The whitespace class of JavaScript `trim` and of the regex class used by
the trailing-terminator strip, restricted to ASCII. -/
def isJsWhitespace (c : Char) : Bool :=
  c == ' ' || c == '\t' || c == '\n' || c == '\r' ||
    c == Char.ofNat 11 || c == Char.ofNat 12

/-- `query.trim()`: drop whitespace from both ends. -/
def jsTrim (s : List Char) : List Char :=
  ((s.dropWhile isJsWhitespace).reverse.dropWhile isJsWhitespace).reverse

/-- `trimmed.replace(/;+\s*$/, "")` (line 95): if the text ends in optional
whitespace preceded by a run of semicolons, remove that run and the
whitespace; otherwise leave the text unchanged. -/
def stripTrailingTerminators (s : List Char) : List Char :=
  let afterWs := s.reverse.dropWhile isJsWhitespace
  if afterWs.headD 'x' == ';' then
    (afterWs.dropWhile (fun c => c == ';')).reverse
  else
    s

/-- The regex word class `\w` = `[A-Za-z0-9_]`. -/
def isWordChar (c : Char) : Bool :=
  c.isAlpha || c.isDigit || c == '_'

/-- Lowercase a text, for the case-insensitive regex tests. -/
def toLowerList (s : List Char) : List Char :=
  s.map Char.toLower

/-- `/^(kw)\b/i` for a lowercase alphabetic keyword `kw`: the lowercased
text starts with `kw` and the next character, if any, is not a word
character (line 102). -/
def startsWithKw (kw : List Char) (s : List Char) : Bool :=
  let l := toLowerList s
  l.take kw.length == kw &&
    (match l.drop kw.length with
     | [] => true
     | c :: _ => !isWordChar c)

/-- Find the end of a quoted literal opened just before `l`, following the
backtracking semantics of `/q(?:qq|[^q])*q/`: a doubled quote is consumed as
content when a closing quote can still be found later, otherwise its first
quote closes the literal; a lone quote always closes. Returns the remainder
after the closing quote, or `none` when no closing quote exists. -/
def litEnd (q : Char) : List Char → Option (List Char)
  | [] => none
  | c :: rest =>
    if c == q then
      match rest with
      | [] => some []
      | c2 :: rest2 =>
        if c2 == q then
          match litEnd q rest2 with
          | some r => some r
          | none => some (c2 :: rest2)
        else
          some rest
    else
      litEnd q rest

/-- One global replace `/q(?:qq|[^q])*q/g -> qq`, fuelled by the input
length (each step consumes at least one character, so `s.length` fuel always
suffices). -/
def scrubGo (q : Char) : Nat → List Char → List Char
  | 0, s => s
  | _, [] => []
  | fuel + 1, c :: rest =>
    if c == q then
      match litEnd q rest with
      | some after => q :: q :: scrubGo q fuel after
      | none => c :: scrubGo q fuel rest
    else
      c :: scrubGo q fuel rest

/-- Replace every `q`-quoted literal by an empty pair of quotes
(lines 106-109, one of the three `replace` calls). -/
def scrubQuoted (q : Char) (s : List Char) : List Char :=
  scrubGo q s.length s

/-- The blocked keyword list of line 111. -/
def forbiddenKeywords : List (List Char) :=
  ["insert".data, "update".data, "delete".data, "drop".data, "alter".data,
   "create".data, "attach".data, "detach".data, "pragma".data,
   "reindex".data, "vacuum".data, "replace".data]

/-- Whether a (lowercased) text starts with `kw` followed by a word
boundary. -/
def matchKwAt (s : List Char) (kw : List Char) : Bool :=
  s.take kw.length == kw &&
    (match s.drop kw.length with
     | [] => true
     | c :: _ => !isWordChar c)

/-- Scan a lowercased text for a blocked keyword with a word boundary on
both sides; `prevIsWord` records whether the previous character was a word
character. -/
def scanKw (prevIsWord : Bool) : List Char → Bool
  | [] => false
  | c :: rest =>
    (!prevIsWord && forbiddenKeywords.any (matchKwAt (c :: rest))) ||
      scanKw (isWordChar c) rest

/-- `/\b(insert|update|...)\b/i.test(scrubbed)` (line 111). -/
def hasForbiddenKw (s : List Char) : Bool :=
  scanKw false (toLowerList s)

/-- A prepared statement: better-sqlite3 reports through `stmt.reader`
whether the compiled statement returns data, and running it can in general
read and rewrite the store. -/
structure Stmt where
  reader : Bool
  runAll : Db → Except String (List Row × Db)

/-- The SQLite engine behind `db.prepare`: preparing may fail (for example
on a syntax error). -/
structure SqlEngine where
  prepare : List Char → Except String Stmt

/-- Statement execution over the handle opened by `getDatabase` (lines
68-70) with `readonly: true`: an execution that would change the store fails
at the file-access layer instead. -/
def execReadonly (st : Stmt) (db : Db) : Except String (List Row) :=
  match st.runAll db with
  | .error e => .error e
  | .ok (rows, db') =>
    if db' = db then .ok rows else .error "attempt to write a readonly database"

/-- The validation pipeline of `runQuery` (lines 83-113): empty check, size
bound, single-statement check, SELECT/WITH prefix check, scrub-then-keyword
scan. On success it returns the terminator-stripped text handed to
`db.prepare`. `maxChars` abstracts the `MAX_QUERY_CHARS` computation of line
89, whose default is 50000. -/
def validateQuery (maxChars : Nat) (query : String) : Except String (List Char) :=
  if (jsTrim query.data).length = 0 then
    .error "Query cannot be empty."
  else if maxChars < (jsTrim query.data).length then
    .error ("Query too large (max " ++ toString maxChars ++ " characters).")
  else if (stripTrailingTerminators (jsTrim query.data)).contains ';' then
    .error "Only a single SELECT statement is allowed."
  else if !(startsWithKw "select".data (stripTrailingTerminators (jsTrim query.data)) ||
      startsWithKw "with".data (stripTrailingTerminators (jsTrim query.data))) then
    .error "Only SELECT queries are allowed."
  else if hasForbiddenKw (scrubQuoted backQuote (scrubQuoted doubleQuote
      (scrubQuoted singleQuote (stripTrailingTerminators (jsTrim query.data))))) then
    .error "Only SELECT queries are allowed."
  else
    .ok (stripTrailingTerminators (jsTrim query.data))

/-- `GarminDataService.runQuery` (lines 82-125): validate, prepare over the
readonly handle, reject non-reader statements, execute, and close the handle
on every exit path. The returned pair carries the result and the store after
the call. -/
def runQuery (eng : SqlEngine) (maxChars : Nat) (query : String) (db : Db) :
    Except String (List Row) × Db :=
  match validateQuery maxChars query with
  | .error e => (.error e, db)
  | .ok core =>
    match eng.prepare core with
    | .error e => (.error e, db)
    | .ok stmt =>
      if !stmt.reader then
        (.error "Only SELECT queries are allowed.", db)
      else
        (execReadonly stmt db, db)

/-! ## Incremental Sync Engine (`src/services/garmin-sync-service.ts`) -/

/-- The value object returned by one sync invocation
(`SyncResult`, lines 80-85). -/
structure SyncResult where
  newActivitiesCount : Nat
  totalActivities : Nat
  latestActivityDate : Option Nat
  error : Option String
deriving DecidableEq

/-- Failure switches of one `saveActivities` transaction (lines 146-199):
`BEGIN`, `stmt.finalize`, `COMMIT` can each fail, and each `stmt.run` can
fail per row. -/
structure SaveEnv where
  beginErr : Bool
  finalizeErr : Bool
  commitErr : Bool
  rowErr : Activity → Bool

/-- The `forEach` over `stmt.run` (lines 162-172): threads the table under
the open transaction together with the `saved` and `errors` counters; a
failing row leaves the table untouched and bumps `errors`. -/
def runRows (e : SaveEnv) (items : List Activity) (st : Db × Nat × Nat) :
    Db × Nat × Nat :=
  items.foldl
    (fun st a =>
      if e.rowErr a then (st.1, st.2.1, st.2.2 + 1)
      else (upsert st.1 (toRow a), st.2.1 + 1, st.2.2))
    st

/-- `GarminSyncService.saveActivities` (lines 146-199): `BEGIN TRANSACTION`,
run the prepared upsert per row, finalize, then `ROLLBACK` (returning the
original table) when finalization failed or any row failed, else `COMMIT`
(or roll back if the commit itself fails). The pair carries the promise
outcome and the table after the call. -/
def saveActivities (e : SaveEnv) (db : Db) (items : List Activity) :
    Except String Nat × Db :=
  if e.beginErr then
    (.error "Failed to begin transaction", db)
  else if e.finalizeErr then
    (.error "Failed to finalize statement", db)
  else if 0 < (runRows e items (db, 0, 0)).2.2 then
    (.error (toString (runRows e items (db, 0, 0)).2.2 ++ " activities failed to save."), db)
  else if e.commitErr then
    (.error "Failed to commit transaction", db)
  else
    (.ok (runRows e items (db, 0, 0)).2.1, (runRows e items (db, 0, 0)).1)

/-- Environment of one `syncActivities` call: the two credential variables,
the possible database-open and login failures (as the messages the promises
reject with), the remote pager `gc.getActivities(start, limit)`, and the
transaction failure switches. -/
structure SyncEnv where
  username : Option String
  password : Option String
  initErr : Option String
  loginErr : Option String
  remote : Nat → Nat → Except String (List Activity)
  save : SaveEnv

/-- JavaScript falsiness of `process.env.X` (line 211): unset or empty. -/
def missingCred : Option String → Bool
  | none => true
  | some s => s.isEmpty

/-- The login-error rewriting of lines 229-234: messages mentioning
`not valid JSON` or `login page` are replaced by the guidance message. -/
def loginMessage (m : String) : String :=
  if decide ("not valid JSON".data <:+: m.data) || decide ("login page".data <:+: m.data) then
    "Garmin authentication failed. Please verify your GARMIN_USERNAME and GARMIN_PASSWORD in .env file are correct. You may also need to log in to Garmin Connect via a web browser first."
  else
    m

/-- The stop test of line 253: `latestActivityDate && new
Date(activity.startTimeLocal) <= latestActivityDate`. -/
def notNewer (w : Option Nat) (a : Activity) : Bool :=
  match w with
  | some t => a.startTimeLocal ≤ t
  | none => false

/-- The `for` classification of lines 252-258: collect records until the
first one that is not strictly newer than the watermark; that record raises
the stop signal for the whole loop. -/
def classifyPage (w : Option Nat) : List Activity → List Activity × Bool
  | [] => ([], false)
  | a :: rest =>
    if notNewer w a then ([], true)
    else
      let p := classifyPage w rest
      (a :: p.1, p.2)

/-- The `while (keepGoing)` pagination loop of lines 245-268, with page size
100: fetch a page, reread the watermark, classify, stop on the stop signal
or on an empty page, else advance the offset. `none` means the fuel ran out
before the loop ended. -/
def syncLoop (remote : Nat → Nat → Except String (List Activity)) (db : Db) :
    Nat → Nat → List Activity → Option (Except String (List Activity))
  | 0, _, _ => none
  | fuel + 1, start, acc =>
    match remote start 100 with
    | .error e => some (.error e)
    | .ok page =>
      if 0 < page.length then
        if (classifyPage (getLatestActivityDate db) page).2 then
          some (.ok (acc ++ (classifyPage (getLatestActivityDate db) page).1))
        else
          syncLoop remote db fuel (start + 100)
            (acc ++ (classifyPage (getLatestActivityDate db) page).1)
      else
        some (.ok acc)

/-- `GarminSyncService.syncActivities` (lines 207-295): credential check,
database open, login, pagination loop, one batch save when the buffer is
non-empty, then the report; any thrown error is caught and returned as a
`SyncResult` with zero counts, a null date and the error message. The pair
carries the result and the store after the call; `none` means the pagination
loop ran out of fuel. -/
def syncActivities (env : SyncEnv) (db : Db) (fuel : Nat) :
    Option (SyncResult × Db) :=
  if missingCred env.username || missingCred env.password then
    some (⟨0, 0, none,
      some "Missing GARMIN_USERNAME or GARMIN_PASSWORD in environment variables"⟩, db)
  else
    match env.initErr with
    | some m => some (⟨0, 0, none, some m⟩, db)
    | none =>
      match env.loginErr with
      | some m => some (⟨0, 0, none, some (loginMessage m)⟩, db)
      | none =>
        match syncLoop env.remote db fuel 0 [] with
        | none => none
        | some (.error e) => some (⟨0, 0, none, some e⟩, db)
        | some (.ok newActivities) =>
          if 0 < newActivities.length then
            match saveActivities env.save db newActivities with
            | (.error e, db') => some (⟨0, 0, none, some e⟩, db')
            | (.ok _, db') =>
              some (⟨newActivities.length, getActivitiesCount db',
                getLatestActivityDate db', none⟩, db')
          else
            some (⟨newActivities.length, getActivitiesCount db,
              getLatestActivityDate db, none⟩, db)

/-- Ordering on watermarks used by the monotonicity claim: an absent
watermark is below everything. -/
def wmLE : Option Nat → Option Nat → Prop
  | none, _ => True
  | some w, o => ∃ w', o = some w' ∧ w ≤ w'

/-! ## Proof infrastructure and concrete objects for witnesses -/

/-- The last record of a batch carrying the given primary key. -/
def lastFor (items : List Activity) (i : Int) : Option Activity :=
  items.reverse.find? (fun a => a.activityId == i)

/-- The row a batch replay leaves at the place of `x`: the last batch record
with the key of `x`, or `x` itself when the batch never touches that key. -/
def substRow (items : List Activity) (x : ActivityRow) : ActivityRow :=
  match lastFor items x.activity_id with
  | some a => toRow a
  | none => x

/-- A transaction environment in which nothing fails. -/
def noFailSave : SaveEnv :=
  ⟨false, false, false, fun _ => false⟩

/-- A one-cell result set. -/
def rowsOne : List Row :=
  [[("1", Scalar.intv 1)]]

/-- A prepared statement that reads the given rows and leaves the store
alone. -/
def constStmt (rows : List Row) : Stmt :=
  ⟨true, fun db => .ok (rows, db)⟩

/-- An engine that accepts every statement as a reader returning the given
rows. -/
def constEngine (rows : List Row) : SqlEngine :=
  ⟨fun _ => .ok (constStmt rows)⟩

/-- The quoted-literal query of the false-positive claim. -/
def quotedLiteralQuery : String :=
  "SELECT * FROM activities WHERE description = " ++ String.mk [singleQuote]
    ++ "DELETE this later" ++ String.mk [singleQuote]

/-- A remote activity, for witnesses. -/
def mkAct (i : Int) (t : Nat) (c : Int) : Activity :=
  ⟨i, "run", t, c⟩

/-- A stored row, for witnesses. -/
def mkRow (i : Int) (t : Nat) (c : Int) : ActivityRow :=
  ⟨i, "run", t, c⟩

/-- A remote source that serves exactly one first page and fails on any
further fetch, for witnesses and for stop-signal claims. -/
def onePageRemote (page : List Activity) :
    Nat → Nat → Except String (List Activity) :=
  fun start _ => if start = 0 then .ok page else .error "fetched past the stop signal"

/-- A benign sync environment around a given remote source, for witnesses. -/
def mkSyncEnv (remote : Nat → Nat → Except String (List Activity)) : SyncEnv :=
  ⟨some "user", some "pass", none, none, remote, noFailSave⟩

/-! ## Helper lemmas -/

theorem replOne_id (r x : ActivityRow) :
    (replOne r x).activity_id = x.activity_id := by
  unfold replOne
  split
  · next h => exact (beq_iff_eq.mp h).symm
  · rfl

theorem hasId_of_mem {db : Db} {x : ActivityRow} (hx : x ∈ db) :
    hasId db x.activity_id = true :=
  List.any_eq_true.mpr ⟨x, hx, beq_self_eq_true _⟩

theorem hasId_map_replOne (db : Db) (r : ActivityRow) (i : Int) :
    hasId (db.map (replOne r)) i = hasId db i := by
  induction db with
  | nil => rfl
  | cons x t ih =>
    simp only [List.map_cons, hasId, List.any_cons] at *
    rw [replOne_id, ih]

theorem mem_upsert_self (db : Db) (r : ActivityRow) : r ∈ upsert db r := by
  unfold upsert
  split
  · next h =>
    rcases List.any_eq_true.mp h with ⟨x, hx, hxe⟩
    exact List.mem_map.mpr ⟨x, hx, by simp [replOne, hxe]⟩
  · simp

theorem mem_upsert_eq_of_id {db : Db} {r x : ActivityRow}
    (hx : x ∈ upsert db r) (hid : x.activity_id = r.activity_id) : x = r := by
  unfold upsert at hx
  split at hx
  · rcases List.mem_map.mp hx with ⟨y, hy, hyx⟩
    by_cases hc : y.activity_id = r.activity_id
    · rw [replOne, if_pos (beq_iff_eq.mpr hc)] at hyx
      exact hyx.symm
    · rw [replOne, if_neg (by simpa using hc)] at hyx
      subst hyx
      exact absurd hid hc
  · next h =>
    rcases List.mem_append.mp hx with hdb | hr
    · exact absurd (hid ▸ hasId_of_mem hdb) h
    · simpa using hr

theorem mem_upsert_ne {db : Db} {r x : ActivityRow}
    (hx : x ∈ upsert db r) (hid : x.activity_id ≠ r.activity_id) : x ∈ db := by
  unfold upsert at hx
  split at hx
  · rcases List.mem_map.mp hx with ⟨y, hy, hyx⟩
    by_cases hc : y.activity_id = r.activity_id
    · rw [replOne, if_pos (beq_iff_eq.mpr hc)] at hyx
      exact absurd (hyx ▸ rfl) hid
    · rw [replOne, if_neg (by simpa using hc)] at hyx
      exact hyx ▸ hy
  · rcases List.mem_append.mp hx with hdb | hr
    · exact hdb
    · exact absurd (by simpa using hr : x = r) (fun he => hid (he ▸ rfl))

theorem hasId_upsert_mono {db : Db} {i : Int} (r : ActivityRow)
    (h : hasId db i = true) : hasId (upsert db r) i = true := by
  unfold upsert
  split
  · rw [hasId_map_replOne]; exact h
  · unfold hasId at h ⊢
    rw [List.any_append, h, Bool.true_or]

theorem applyAll_cons (db : Db) (a : Activity) (t : List Activity) :
    applyAll db (a :: t) = applyAll (upsert db (toRow a)) t := rfl

theorem applyAll_append_singleton (db : Db) (t : List Activity) (b : Activity) :
    applyAll db (t ++ [b]) = upsert (applyAll db t) (toRow b) := by
  simp [applyAll, List.foldl_append]

theorem hasId_applyAll_mono {db : Db} {i : Int} (items : List Activity)
    (h : hasId db i = true) : hasId (applyAll db items) i = true := by
  induction items generalizing db with
  | nil => exact h
  | cons a t ih => exact ih (hasId_upsert_mono _ h)

theorem hasId_applyAll_of_mem {items : List Activity} {a : Activity}
    (ha : a ∈ items) (db : Db) :
    hasId (applyAll db items) a.activityId = true := by
  induction items generalizing db with
  | nil => cases ha
  | cons b t ih =>
    cases ha with
    | head =>
      rw [applyAll_cons]
      exact hasId_applyAll_mono t (hasId_of_mem (mem_upsert_self db (toRow a)))
    | tail _ hmem =>
      rw [applyAll_cons]
      exact ih hmem _

theorem substRow_nil (x : ActivityRow) : substRow [] x = x := rfl

theorem substRow_cons (a : Activity) (t : List Activity) (x : ActivityRow) :
    substRow (a :: t) x = substRow t (replOne (toRow a) x) := by
  have hrepl : (replOne (toRow a) x).activity_id = x.activity_id := replOne_id _ _
  simp only [substRow, lastFor, List.reverse_cons, List.find?_append, hrepl]
  cases hf : List.find? (fun b => b.activityId == x.activity_id) t.reverse with
  | some b => simp
  | none =>
    simp only [Option.none_or]
    by_cases hc : a.activityId = x.activity_id
    · have h1 : (a.activityId == x.activity_id) = true := beq_iff_eq.mpr hc
      have h2 : (x.activity_id == (toRow a).activity_id) = true := beq_iff_eq.mpr hc.symm
      simp [List.find?_cons, h1, replOne, h2]
    · have h1 : (a.activityId == x.activity_id) = false := by simpa using hc
      have h2 : (x.activity_id == (toRow a).activity_id) = false := by
        simpa using fun he => hc (he.symm : a.activityId = x.activity_id)
      simp [List.find?_cons, h1, replOne, h2]

theorem applyAll_eq_map_substRow {items : List Activity} {db : Db}
    (h : ∀ a ∈ items, hasId db a.activityId = true) :
    applyAll db items = db.map (substRow items) := by
  induction items generalizing db with
  | nil =>
    have : ∀ x ∈ db, substRow [] x = x := fun x _ => substRow_nil x
    rw [applyAll, List.foldl_nil, List.map_congr_left this, List.map_id']
  | cons a t ih =>
    rw [applyAll_cons]
    have hup : upsert db (toRow a) = db.map (replOne (toRow a)) := by
      unfold upsert
      rw [if_pos (show hasId db (toRow a).activity_id = true from
        h a (List.mem_cons_self a t))]
    rw [hup]
    have hpre : ∀ b ∈ t, hasId (db.map (replOne (toRow a))) b.activityId = true := by
      intro b hb
      rw [hasId_map_replOne]
      exact h b (List.mem_cons_of_mem a hb)
    rw [ih hpre, List.map_map]
    have : ∀ x ∈ db, (substRow t ∘ replOne (toRow a)) x = substRow (a :: t) x := by
      intro x _
      exact (substRow_cons a t x).symm
    rw [List.map_congr_left this]

theorem applyAll_last (items : List Activity) :
    ∀ (db : Db) (x : ActivityRow) (a : Activity),
      x ∈ applyAll db items → lastFor items x.activity_id = some a →
      x = toRow a := by
  induction items using List.reverseRecOn with
  | nil =>
    intro db x a hx hl
    exact absurd hl (by simp [lastFor])
  | append_singleton t b ih =>
    intro db x a hx hl
    rw [applyAll_append_singleton] at hx
    unfold lastFor at hl
    rw [List.reverse_append, List.reverse_singleton, List.singleton_append,
      List.find?_cons] at hl
    by_cases hc : b.activityId = x.activity_id
    · have hb : (b.activityId == x.activity_id) = true := beq_iff_eq.mpr hc
      simp only [hb] at hl
      cases hl
      exact mem_upsert_eq_of_id hx (show x.activity_id = (toRow b).activity_id from hc.symm)
    · have hb : (b.activityId == x.activity_id) = false := by simpa using hc
      simp only [hb] at hl
      have hxt : x ∈ applyAll db t :=
        mem_upsert_ne hx (fun he => hc (he.symm : b.activityId = x.activity_id))
      exact ih db x a hxt hl

theorem applyAll_idem (db : Db) (items : List Activity) :
    applyAll (applyAll db items) items = applyAll db items := by
  have h1 : ∀ a ∈ items, hasId (applyAll db items) a.activityId = true :=
    fun a ha => hasId_applyAll_of_mem ha db
  rw [applyAll_eq_map_substRow h1]
  have h2 : ∀ x ∈ applyAll db items, substRow items x = x := by
    intro x hx
    unfold substRow
    cases hl : lastFor items x.activity_id with
    | none => rfl
    | some a => exact (applyAll_last items db x a hx hl).symm
  rw [List.map_congr_left h2, List.map_id']

theorem runRows_cons (e : SaveEnv) (a : Activity) (t : List Activity)
    (st : Db × Nat × Nat) :
    runRows e (a :: t) st =
      runRows e t
        (if e.rowErr a then (st.1, st.2.1, st.2.2 + 1)
         else (upsert st.1 (toRow a), st.2.1 + 1, st.2.2)) := rfl

theorem runRows_cons_pair (e : SaveEnv) (a : Activity) (t : List Activity)
    (db : Db) (s er : Nat) :
    runRows e (a :: t) (db, s, er) =
      if e.rowErr a then runRows e t (db, s, er + 1)
      else runRows e t (upsert db (toRow a), s + 1, er) := by
  rw [runRows_cons]
  by_cases h : e.rowErr a = true
  · rw [if_pos h, if_pos h]
  · rw [if_neg h, if_neg h]

theorem runRows_err_le (e : SaveEnv) (items : List Activity) :
    ∀ (db : Db) (s er : Nat), er ≤ (runRows e items (db, s, er)).2.2 := by
  induction items with
  | nil => intro db s er; exact le_refl er
  | cons a t ih =>
    intro db s er
    rw [runRows_cons_pair]
    by_cases h : e.rowErr a = true
    · rw [if_pos h]
      exact le_trans (Nat.le_succ er) (ih db s (er + 1))
    · rw [if_neg h]
      exact ih _ _ _

theorem runRows_of_final_err (e : SaveEnv) (items : List Activity) :
    ∀ (db : Db) (s er : Nat), (runRows e items (db, s, er)).2.2 = er →
      runRows e items (db, s, er) = (applyAll db items, s + items.length, er) := by
  induction items with
  | nil =>
    intro db s er _
    simp [runRows, applyAll]
  | cons a t ih =>
    intro db s er hz
    rw [runRows_cons_pair] at hz ⊢
    by_cases h : e.rowErr a = true
    · rw [if_pos h] at hz
      have := runRows_err_le e t db s (er + 1)
      omega
    · rw [if_neg h] at hz ⊢
      rw [ih _ _ _ hz, applyAll_cons]
      have : s + 1 + t.length = s + (a :: t).length := by
        simp [List.length_cons]
        omega
      rw [this]

theorem saveActivities_ok_shape {e : SaveEnv} {db d' : Db}
    {items : List Activity} {n : Nat}
    (h : saveActivities e db items = (.ok n, d')) :
    d' = applyAll db items ∧ n = items.length := by
  unfold saveActivities at h
  split at h
  · cases h
  · split at h
    · cases h
    · split at h
      · cases h
      · split at h
        · cases h
        · next herr _ =>
          have hz : (runRows e items (db, 0, 0)).2.2 = 0 := by omega
          rw [runRows_of_final_err e items db 0 0 hz] at h
          cases h
          exact ⟨rfl, by simp⟩

theorem latestAux_le_of_mem {db : Db} {r : ActivityRow} (hr : r ∈ db) :
    ∃ m, latestAux db = some m ∧ r.start_time_local ≤ m := by
  induction db with
  | nil => cases hr
  | cons x t ih =>
    cases hr with
    | head =>
      cases ht : latestAux t with
      | none => exact ⟨r.start_time_local, by simp [latestAux, ht], le_refl _⟩
      | some m => exact ⟨max r.start_time_local m, by simp [latestAux, ht], le_max_left _ _⟩
    | tail _ hmem =>
      rcases ih hmem with ⟨m, hm, hle⟩
      exact ⟨max x.start_time_local m, by simp [latestAux, hm], le_trans hle (le_max_right _ _)⟩

theorem wmLE_refl (o : Option Nat) : wmLE o o := by
  cases o with
  | none => trivial
  | some w => exact ⟨w, rfl, le_refl w⟩

theorem classifyPage_mem {w : Option Nat} {page : List Activity} {a : Activity}
    (ha : a ∈ (classifyPage w page).1) : notNewer w a = false := by
  induction page with
  | nil => cases ha
  | cons b t ih =>
    unfold classifyPage at ha
    split at ha
    · cases ha
    · next hb =>
      cases ha with
      | head => exact Bool.eq_false_iff.mpr hb
      | tail _ hmem => exact ih hmem

theorem syncLoop_ok_mem (remote : Nat → Nat → Except String (List Activity))
    (db : Db) :
    ∀ (fuel start : Nat) (acc buf : List Activity),
      syncLoop remote db fuel start acc = some (.ok buf) →
      (∀ a ∈ acc, notNewer (getLatestActivityDate db) a = false) →
      ∀ a ∈ buf, notNewer (getLatestActivityDate db) a = false := by
  intro fuel
  induction fuel with
  | zero =>
    intro start acc buf h
    cases h
  | succ f ih =>
    intro start acc buf h hacc a ha
    rw [syncLoop] at h
    split at h
    · simp at h
    · split at h
      · split at h
        · rw [Option.some_inj] at h
          cases h
          rcases List.mem_append.mp ha with hin | hin
          · exact hacc a hin
          · exact classifyPage_mem hin
        · refine ih (start + 100) _ buf h ?_ a ha
          intro b hb
          rcases List.mem_append.mp hb with hin | hin
          · exact hacc b hin
          · exact classifyPage_mem hin
      · rw [Option.some_inj] at h
        cases h
        exact hacc a ha

theorem applyAll_watermark {w : Nat} (items : List Activity)
    (h : ∀ a ∈ items, w < a.startTimeLocal) :
    ∀ db : Db, applyAll db items = db ∨
      ∃ r, r ∈ applyAll db items ∧ w < r.start_time_local := by
  induction items with
  | nil => intro db; exact Or.inl rfl
  | cons a t ih =>
    intro db
    have ht : ∀ b ∈ t, w < b.startTimeLocal := fun b hb => h b (List.mem_cons_of_mem a hb)
    rw [applyAll_cons]
    rcases ih ht (upsert db (toRow a)) with heq | ⟨r, hr, hlt⟩
    · refine Or.inr ⟨toRow a, ?_, h a (List.mem_cons_self a t)⟩
      rw [heq]
      exact mem_upsert_self db (toRow a)
    · exact Or.inr ⟨r, hr, hlt⟩

/-! ## Claim theorems -/

/-- C1: for every caller-supplied query text (and every engine, size bound
and store state), `runQuery` either returns a sequence of rows or returns a
`QueryRejected`-style error, and in both cases the activities store after
the call is exactly the store before it: no input to `runQuery` can mutate
the store, because every validation failure exits before execution and the
execution itself goes through the readonly handle of `getDatabase`. -/
theorem runQuery_preserves_store (eng : SqlEngine) (maxChars : Nat)
    (query : String) (db : Db) :
    (runQuery eng maxChars query db).2 = db ∧
      ((∃ rows, (runQuery eng maxChars query db).1 = .ok rows) ∨
       (∃ msg, (runQuery eng maxChars query db).1 = .error msg)) := by
  constructor
  · unfold runQuery
    (repeat' split) <;> rfl
  · cases h : (runQuery eng maxChars query db).1 with
    | ok r => exact Or.inl ⟨r, rfl⟩
    | error m => exact Or.inr ⟨m, rfl⟩

/-- C5, counterexample: the claim says a query that still contains a
terminator after one trailing terminator is removed is rejected; the query
`SELECT 1;;` still contains a semicolon after one trailing semicolon is
removed, yet `runQuery` accepts and executes it, because line 95 strips the
whole trailing run `/;+\s*$/`, not a single terminator. -/
theorem runQuery_double_semicolon_accepted :
    runQuery (constEngine rowsOne) 50000 "SELECT 1;;" [] = (.ok rowsOne, []) ∧
      ("SELECT 1;".data).contains ';' = true := by
  constructor
  · rfl
  · rfl

/-- C5, amended: `runQuery` strips the whole trailing run of semicolons
(with any following whitespace) and then rejects, without executing
anything, every query in which a semicolon still remains — in particular
every query with an interior semicolon, such as a stacked second
statement. -/
theorem runQuery_rejects_remaining_semicolon (eng : SqlEngine) (mc : Nat)
    (q : String) (db : Db)
    (hlen : (jsTrim q.data).length ≤ mc)
    (hsemi : (stripTrailingTerminators (jsTrim q.data)).contains ';' = true) :
    runQuery eng mc q db = (.error "Only a single SELECT statement is allowed.", db) := by
  have hne : ¬ (jsTrim q.data).length = 0 := by
    intro h0
    rw [List.length_eq_zero.mp h0] at hsemi
    simp [stripTrailingTerminators] at hsemi
  unfold runQuery validateQuery
  rw [if_neg hne, if_neg (not_lt.mpr hlen), if_pos hsemi]

/-- C5, amended, witness at a stacked-statement input. -/
theorem runQuery_rejects_remaining_semicolon_witness :
    runQuery (constEngine rowsOne) 50000 "SELECT 1; DROP TABLE activities" [] =
      (.error "Only a single SELECT statement is allowed.", []) :=
  runQuery_rejects_remaining_semicolon (constEngine rowsOne) 50000
    "SELECT 1; DROP TABLE activities" [] (by decide) (by decide)

/-- C6: the quoted-literal query succeeds: the scrub of lines 106-109
replaces the contents of the quoted literal before the keyword scan, so the
word DELETE inside the string literal does not trigger rejection, and for
every engine that compiles the statement as a reader the rows come back. -/
theorem runQuery_quoted_literal_ok (eng : SqlEngine) (db : Db) (stmt : Stmt)
    (rows : List Row)
    (hprep : eng.prepare (stripTrailingTerminators (jsTrim quotedLiteralQuery.data)) = .ok stmt)
    (hreader : stmt.reader = true)
    (hrun : stmt.runAll db = .ok (rows, db)) :
    runQuery eng 50000 quotedLiteralQuery db = (.ok rows, db) := by
  have hval : validateQuery 50000 quotedLiteralQuery =
      .ok (stripTrailingTerminators (jsTrim quotedLiteralQuery.data)) := by rfl
  unfold runQuery
  simp [hval, hprep, hreader, execReadonly, hrun]

/-- C6, witness at a concrete engine and empty store. -/
theorem runQuery_quoted_literal_ok_witness :
    runQuery (constEngine rowsOne) 50000 quotedLiteralQuery [] = (.ok rowsOne, []) :=
  runQuery_quoted_literal_ok (constEngine rowsOne) [] (constStmt rowsOne) rowsOne
    rfl rfl rfl

/-- C3: the batch upsert is atomic: for every transaction environment,
store and list of records, either the call succeeds and every row has been
written under insert-or-replace-by-primary-key semantics inside the one
transaction (the final store is the full fold of upserts), or the call
fails and the store is exactly as it was before the call — never a mixed
state. -/
theorem saveActivities_atomic (e : SaveEnv) (db : Db) (items : List Activity) :
    (∃ n, saveActivities e db items = (.ok n, applyAll db items)) ∨
      (∃ msg, saveActivities e db items = (.error msg, db)) := by
  unfold saveActivities
  by_cases hb : e.beginErr = true
  · exact Or.inr ⟨_, by rw [if_pos hb]⟩
  · rw [if_neg hb]
    by_cases hf : e.finalizeErr = true
    · exact Or.inr ⟨_, by rw [if_pos hf]⟩
    · rw [if_neg hf]
      by_cases he : 0 < (runRows e items (db, 0, 0)).2.2
      · exact Or.inr ⟨_, by rw [if_pos he]⟩
      · rw [if_neg he]
        by_cases hc : e.commitErr = true
        · exact Or.inr ⟨_, by rw [if_pos hc]⟩
        · rw [if_neg hc]
          refine Or.inl ⟨(runRows e items (db, 0, 0)).2.1, ?_⟩
          rw [runRows_of_final_err e items db 0 0 (by omega)]

/-- C8: batch upsert idempotence: whenever running `saveActivities` twice
in a row with the identical record set succeeds both times, the second run
changes nothing — the stores after the first and the second run are equal
(hence the same `rowCount` and identical row contents), because each row is
keyed by the `activity_id` primary key under insert-or-replace
semantics. -/
theorem saveActivities_idempotent (e : SaveEnv) (db d1 d2 : Db)
    (items : List Activity) (n1 n2 : Nat)
    (h1 : saveActivities e db items = (.ok n1, d1))
    (h2 : saveActivities e d1 items = (.ok n2, d2)) :
    d2 = d1 ∧ getActivitiesCount d2 = getActivitiesCount d1 := by
  obtain ⟨hd1, -⟩ := saveActivities_ok_shape h1
  obtain ⟨hd2, -⟩ := saveActivities_ok_shape h2
  have : d2 = d1 := by
    rw [hd2, hd1, applyAll_idem]
  exact ⟨this, by rw [this]⟩

/-- C8, witness: replaying a one-record batch leaves the one-row store
unchanged. -/
theorem saveActivities_idempotent_witness :
    ([⟨1, "run", 5, 100⟩] : Db) = [⟨1, "run", 5, 100⟩] ∧
      getActivitiesCount [⟨1, "run", 5, 100⟩] =
        getActivitiesCount [⟨1, "run", 5, 100⟩] :=
  saveActivities_idempotent noFailSave [] [⟨1, "run", 5, 100⟩]
    [⟨1, "run", 5, 100⟩] [mkAct 1 5 100] 1 1 rfl rfl

/-- C4: if a page fetch fails at any point mid-pagination (the pagination
loop ends in a fetch error), the sync invocation returns an error result,
commits nothing — the pending buffer of already classified records is
discarded — and the store is returned exactly unchanged, so the watermark
after the failed sync equals the watermark before it and a later re-run
starts from the same state. -/
theorem syncActivities_fetch_error_frame (env : SyncEnv) (db : Db)
    (fuel : Nat) (e : String)
    (hcu : missingCred env.username = false)
    (hcp : missingCred env.password = false)
    (hinit : env.initErr = none) (hlogin : env.loginErr = none)
    (hloop : syncLoop env.remote db fuel 0 [] = some (.error e)) :
    syncActivities env db fuel = some (⟨0, 0, none, some e⟩, db) := by
  unfold syncActivities
  rw [hcu, hcp, hinit, hlogin, hloop]
  rfl

/-- C4, witness: the second page fetch fails after a first successful page;
the buffered first-page record is discarded and the empty store comes back
unchanged. -/
theorem syncActivities_fetch_error_frame_witness :
    syncActivities
      (mkSyncEnv (fun start _ =>
        if start = 0 then .ok [mkAct 7 5 0] else .error "network down"))
      [] 2 =
      some (⟨0, 0, none, some "network down"⟩, []) :=
  syncActivities_fetch_error_frame
    (mkSyncEnv (fun start _ =>
      if start = 0 then .ok [mkAct 7 5 0] else .error "network down"))
    [] 2 "network down" rfl rfl rfl rfl rfl

/-- C10: `syncActivities` is total over failures: whenever a sync
invocation returns a result whose error field is set, the reported
`newActivitiesCount`, `totalActivities` and `latestActivityDate` are `0`,
`0` and `null` — in particular `totalActivities` is reported as `0` even
when the store actually contains rows. -/
theorem syncActivities_error_result_shape (env : SyncEnv) (db : Db)
    (fuel : Nat) (res : SyncResult) (db' : Db)
    (h : syncActivities env db fuel = some (res, db'))
    (herr : res.error.isSome = true) :
    res.newActivitiesCount = 0 ∧ res.totalActivities = 0 ∧
      res.latestActivityDate = none := by
  unfold syncActivities at h
  split at h
  · rw [Option.some_inj, Prod.mk.injEq] at h
    rw [← h.1]
    exact ⟨rfl, rfl, rfl⟩
  · split at h
    · rw [Option.some_inj, Prod.mk.injEq] at h
      rw [← h.1]
      exact ⟨rfl, rfl, rfl⟩
    · split at h
      · rw [Option.some_inj, Prod.mk.injEq] at h
        rw [← h.1]
        exact ⟨rfl, rfl, rfl⟩
      · split at h
        · cases h
        · rw [Option.some_inj, Prod.mk.injEq] at h
          rw [← h.1]
          exact ⟨rfl, rfl, rfl⟩
        · split at h
          · split at h
            · rw [Option.some_inj, Prod.mk.injEq] at h
              rw [← h.1]
              exact ⟨rfl, rfl, rfl⟩
            · rw [Option.some_inj, Prod.mk.injEq] at h
              rw [← h.1] at herr
              simp at herr
          · rw [Option.some_inj, Prod.mk.injEq] at h
            rw [← h.1] at herr
            simp at herr

/-- C10, witness: with credentials missing and a store that actually holds
one row, the error result still reports zero totals. -/
theorem syncActivities_error_result_shape_witness :
    (⟨0, 0, none,
        some "Missing GARMIN_USERNAME or GARMIN_PASSWORD in environment variables"⟩ :
      SyncResult).newActivitiesCount = 0 ∧
      (⟨0, 0, none,
          some "Missing GARMIN_USERNAME or GARMIN_PASSWORD in environment variables"⟩ :
        SyncResult).totalActivities = 0 ∧
      (⟨0, 0, none,
          some "Missing GARMIN_USERNAME or GARMIN_PASSWORD in environment variables"⟩ :
        SyncResult).latestActivityDate = none :=
  syncActivities_error_result_shape
    ⟨none, none, none, none, fun _ _ => .ok [], noFailSave⟩
    [⟨1, "run", 5, 100⟩] 1
    ⟨0, 0, none,
      some "Missing GARMIN_USERNAME or GARMIN_PASSWORD in environment variables"⟩
    [⟨1, "run", 5, 100⟩] rfl rfl

/-- C7: watermark monotonicity: for every environment (hence every remote
source), store state and fuel, after a sync invocation that returns with no
error the watermark `getLatestActivityDate` is at least its value before
the sync — only records strictly newer than the watermark are ever buffered
and committed, so the maximum `start_time_local` never decreases. -/
theorem syncActivities_watermark_monotone (env : SyncEnv) (db : Db)
    (fuel : Nat) (res : SyncResult) (db' : Db)
    (h : syncActivities env db fuel = some (res, db'))
    (herr : res.error = none) :
    wmLE (getLatestActivityDate db) (getLatestActivityDate db') := by
  unfold syncActivities at h
  split at h
  · rw [Option.some_inj, Prod.mk.injEq] at h
    rw [← h.1] at herr
    simp at herr
  · split at h
    · rw [Option.some_inj, Prod.mk.injEq] at h
      rw [← h.1] at herr
      simp at herr
    · split at h
      · rw [Option.some_inj, Prod.mk.injEq] at h
        rw [← h.1] at herr
        simp at herr
      · split at h
        · cases h
        · rw [Option.some_inj, Prod.mk.injEq] at h
          rw [← h.1] at herr
          simp at herr
        · next newActivities hloop =>
          split at h
          · next hsave =>
            split at h
            · rw [Option.some_inj, Prod.mk.injEq] at h
              rw [← h.1] at herr
              simp at herr
            · next n d hsaveok =>
              rw [Option.some_inj, Prod.mk.injEq] at h
              obtain ⟨hd, -⟩ := saveActivities_ok_shape hsaveok
              rw [← h.2, hd]
              have hbuf : ∀ a ∈ newActivities,
                  notNewer (getLatestActivityDate db) a = false :=
                syncLoop_ok_mem env.remote db fuel 0 [] newActivities hloop
                  (by intro a ha; cases ha)
              cases hw : getLatestActivityDate db with
              | none => trivial
              | some w =>
                have hstrict : ∀ a ∈ newActivities, w < a.startTimeLocal := by
                  intro a ha
                  have := hbuf a ha
                  rw [hw] at this
                  simp [notNewer] at this
                  omega
                rcases applyAll_watermark newActivities hstrict db with heq | ⟨r, hr, hlt⟩
                · rw [heq, hw]
                  exact ⟨w, rfl, le_refl w⟩
                · rcases latestAux_le_of_mem hr with ⟨m, hm, hle⟩
                  exact ⟨m, hm, le_of_lt (lt_of_lt_of_le hlt hle)⟩
          · rw [Option.some_inj, Prod.mk.injEq] at h
            rw [← h.2]
            exact wmLE_refl _

/-- C7, witness: a store at watermark 10 and a remote returning one newer
and one not-newer record; after the successful sync the watermark moved
from 10 to 13. -/
theorem syncActivities_watermark_monotone_witness :
    wmLE (getLatestActivityDate [⟨1, "run", 10, 100⟩])
      (getLatestActivityDate [⟨1, "run", 10, 100⟩, ⟨2, "run", 13, 0⟩]) :=
  syncActivities_watermark_monotone
    (mkSyncEnv (onePageRemote [mkAct 2 13 0, mkAct 3 10 0]))
    [⟨1, "run", 10, 100⟩] 1
    ⟨1, 2, some 13, none⟩ [⟨1, "run", 10, 100⟩, ⟨2, "run", 13, 0⟩]
    rfl rfl

/-- C2: incremental correctness: with the store at watermark `T` and the
remote source returning, newest-first, records at `T+3, T+2, T+1, T, T-1`,
one sync invocation commits exactly the three records at `T+3, T+2, T+1`
and stops the loop upon classifying the record at `T`: the remote source
here fails on every offset other than `0`, so the successful outcome also
shows no further page was fetched. -/
theorem syncActivities_incremental (env : SyncEnv) (db : Db) (T : Nat)
    (a1 a2 a3 a4 a5 : Activity) (f : Nat)
    (hcu : missingCred env.username = false)
    (hcp : missingCred env.password = false)
    (hinit : env.initErr = none) (hlogin : env.loginErr = none)
    (hsavee : env.save = noFailSave)
    (hrem : env.remote = onePageRemote [a1, a2, a3, a4, a5])
    (hw : getLatestActivityDate db = some T)
    (h1 : a1.startTimeLocal = T + 3) (h2 : a2.startTimeLocal = T + 2)
    (h3 : a3.startTimeLocal = T + 1) (h4 : a4.startTimeLocal = T)
    (h5 : a5.startTimeLocal = T - 1) :
    syncActivities env db (f + 1) =
      some (⟨3, getActivitiesCount (applyAll db [a1, a2, a3]),
        getLatestActivityDate (applyAll db [a1, a2, a3]), none⟩,
        applyAll db [a1, a2, a3]) := by
  have hn1 : notNewer (some T) a1 = false := by
    simp only [notNewer, h1, decide_eq_false_iff_not]
    omega
  have hn2 : notNewer (some T) a2 = false := by
    simp only [notNewer, h2, decide_eq_false_iff_not]
    omega
  have hn3 : notNewer (some T) a3 = false := by
    simp only [notNewer, h3, decide_eq_false_iff_not]
    omega
  have hn4 : notNewer (some T) a4 = true := by
    simp only [notNewer, h4, decide_eq_true_eq]
    exact le_refl T
  have hcl : classifyPage (some T) [a1, a2, a3, a4, a5] = ([a1, a2, a3], true) := by
    simp [classifyPage, hn1, hn2, hn3, hn4]
  have hloop : syncLoop env.remote db (f + 1) 0 [] = some (.ok [a1, a2, a3]) := by
    rw [syncLoop, hrem]
    simp [onePageRemote, hw, hcl]
  have hsave : saveActivities env.save db [a1, a2, a3] =
      (.ok 3, applyAll db [a1, a2, a3]) := by
    rw [hsavee]
    rfl
  unfold syncActivities
  simp [hcu, hcp, hinit, hlogin, hloop, hsave]

/-- C2, witness: watermark 10, remote page `[13, 12, 11, 10, 9]`. -/
theorem syncActivities_incremental_witness :
    syncActivities
      (mkSyncEnv (onePageRemote
        [mkAct 2 13 0, mkAct 3 12 0, mkAct 4 11 0, mkAct 5 10 0, mkAct 6 9 0]))
      [⟨1, "run", 10, 100⟩] 1 =
      some (⟨3,
        getActivitiesCount
          (applyAll [⟨1, "run", 10, 100⟩] [mkAct 2 13 0, mkAct 3 12 0, mkAct 4 11 0]),
        getLatestActivityDate
          (applyAll [⟨1, "run", 10, 100⟩] [mkAct 2 13 0, mkAct 3 12 0, mkAct 4 11 0]),
        none⟩,
        applyAll [⟨1, "run", 10, 100⟩] [mkAct 2 13 0, mkAct 3 12 0, mkAct 4 11 0]) :=
  syncActivities_incremental
    (mkSyncEnv (onePageRemote
      [mkAct 2 13 0, mkAct 3 12 0, mkAct 4 11 0, mkAct 5 10 0, mkAct 6 9 0]))
    [⟨1, "run", 10, 100⟩] 10
    (mkAct 2 13 0) (mkAct 3 12 0) (mkAct 4 11 0) (mkAct 5 10 0) (mkAct 6 9 0) 0
    rfl rfl rfl rfl rfl rfl rfl rfl rfl rfl rfl rfl

/-- C9: same-timestamp corrections are not re-pulled: with the store
holding row 42 at calories 300 and the remote re-returning id 42 with
calories 310 at a timestamp exactly equal to the current watermark, the
sync reports `newActivitiesCount = 0` (the first record already raises the
stop signal) and the store — hence the row for id 42 with its stale
calories 300 — is unchanged. -/
theorem syncActivities_same_timestamp_not_repulled (env : SyncEnv) (db : Db)
    (T : Nat) (g : Activity) (r : ActivityRow) (f : Nat)
    (hcu : missingCred env.username = false)
    (hcp : missingCred env.password = false)
    (hinit : env.initErr = none) (hlogin : env.loginErr = none)
    (hrem : env.remote = onePageRemote [g])
    (hw : getLatestActivityDate db = some T)
    (hmem : r ∈ db) (hrid : r.activity_id = 42) (hrcal : r.calories = 300)
    (hgid : g.activityId = 42) (hgt : g.startTimeLocal = T)
    (hgcal : g.calories = 310) :
    syncActivities env db (f + 1) =
      some (⟨0, getActivitiesCount db, some T, none⟩, db) ∧
      r ∈ db ∧ r.activity_id = 42 ∧ r.calories = 300 := by
  have hn : notNewer (some T) g = true := by
    simp only [notNewer, hgt, decide_eq_true_eq]
    exact le_refl T
  have hcl : classifyPage (some T) [g] = ([], true) := by
    simp [classifyPage, hn]
  have hloop : syncLoop env.remote db (f + 1) 0 [] = some (.ok []) := by
    rw [syncLoop, hrem]
    simp [onePageRemote, hw, hcl]
  refine ⟨?_, hmem, hrid, hrcal⟩
  unfold syncActivities
  simp [hcu, hcp, hinit, hlogin, hloop, hw]

/-- C9, witness: store `[42 at time 10, calories 300]`, remote re-returns
id 42 at time 10 with calories 310. -/
theorem syncActivities_same_timestamp_not_repulled_witness :
    syncActivities (mkSyncEnv (onePageRemote [mkAct 42 10 310]))
      [⟨42, "run", 10, 300⟩] 1 =
      some (⟨0, getActivitiesCount [⟨42, "run", 10, 300⟩], some 10, none⟩,
        [⟨42, "run", 10, 300⟩]) ∧
      (⟨42, "run", 10, 300⟩ : ActivityRow) ∈ ([⟨42, "run", 10, 300⟩] : Db) ∧
      (⟨42, "run", 10, 300⟩ : ActivityRow).activity_id = 42 ∧
      (⟨42, "run", 10, 300⟩ : ActivityRow).calories = 300 :=
  syncActivities_same_timestamp_not_repulled
    (mkSyncEnv (onePageRemote [mkAct 42 10 310]))
    [⟨42, "run", 10, 300⟩] 10 (mkAct 42 10 310) ⟨42, "run", 10, 300⟩ 0
    rfl rfl rfl rfl rfl rfl (List.mem_singleton.mpr rfl) rfl rfl rfl rfl rfl

end GarminMcp
